import Mathlib

/-!
Verification of the Workout Record Service (`src/app.py`), a FastAPI + SQLite
CRUD/aggregation backend.  The store is embedded shallowly: a `DB` is the list
of persisted rows of the `workouts` table together with the SQLite
AUTOINCREMENT sequence value (the largest id ever assigned).  Dates are the
ISO-8601 `YYYY-MM-DD` strings that `workout.date.isoformat()` persists; SQLite
compares the TEXT column lexicographically, which is what `≤` on `String`
does.  The nullable `REAL` column `weight` is modelled as `Option Rat`
(arithmetic in the claims is exact).  HTTP outcomes are modelled by `Except`.
-/

namespace FitnessTracker

/-- Pydantic request model `Workouts`: the caller-supplied fields of a
workout.  `date` is kept in its persisted ISO-8601 text form. -/
structure Workouts where
  type : String
  date : String
  reps : Int
  sets : Int
  weight : Option Rat
deriving DecidableEq

/-- Response model `WorkoutResponse` = `Workouts` plus the assigned `id`;
also the shape of a persisted row of the `workouts` table
(`id, type, date, reps, sets, weight`). -/
structure WorkoutResponse where
  id : Nat
  type : String
  date : String
  reps : Int
  sets : Int
  weight : Option Rat
deriving DecidableEq

/-- The persistent store: the rows of the single `workouts` table plus the
SQLite AUTOINCREMENT sequence (largest id ever assigned; ids of an
AUTOINCREMENT primary key are strictly increasing and never reused). -/
structure DB where
  rows : List WorkoutResponse
  seq : Nat
deriving DecidableEq

/-- The empty store created by `init_db` on a fresh database file. -/
def initDB : DB := ⟨[], 0⟩

/-- Observable HTTP error classes of the service: the specific 404
`HTTPException(status_code=404, detail="Workout not found")` versus the
generic 500-class server error. -/
inductive HTTPError where
  | notFound
  | serverError
deriving DecidableEq

/-- The success body of `delete_workout`:
`{"status": "success", "message": "Workout deleted"}`. -/
structure DeleteAck where
  status : String
  message : String
deriving DecidableEq

/-- Response model `AnalyticsResponse` of `/analytics/`. -/
structure AnalyticsResponse where
  labels : List String
  reps_data : List Int
  volume_data : List Rat
deriving DecidableEq

/-- Lexicographic order on code-point lists: SQLite's BINARY collation on the
TEXT `date` column (UTF-8 memcmp, which agrees with code-point order on the
ASCII ISO-8601 dates the service stores). -/
def lexLe : List Char → List Char → Bool
  | [], _ => true
  | _ :: _, [] => false
  | a :: as, b :: bs =>
    if a.toNat < b.toNat then true
    else if b.toNat < a.toNat then false
    else lexLe as bs

/-- SQLite TEXT comparison `a <= b` under BINARY collation. -/
def strLe (a b : String) : Bool :=
  lexLe a.data b.data

/-- `add_workout` (`POST /workouts/`): INSERT the submitted fields, then read
the new row back via `last_insert_rowid()` and return it.  AUTOINCREMENT
assigns `seq + 1` as the new id. -/
def add_workout (w : Workouts) (db : DB) : WorkoutResponse × DB :=
  let newId := db.seq + 1
  let row : WorkoutResponse := ⟨newId, w.type, w.date, w.reps, w.sets, w.weight⟩
  (row, ⟨db.rows ++ [row], newId⟩)

/-- Insert a row into a list kept in `date`-descending order (the `ORDER BY
date DESC` of `get_workouts`; ties keep the store's row order). -/
def insertDateDesc (r : WorkoutResponse) : List WorkoutResponse → List WorkoutResponse
  | [] => [r]
  | x :: xs => if strLe x.date r.date then r :: x :: xs else x :: insertDateDesc r xs

/-- Sort rows by `date` descending (SQLite `ORDER BY date DESC` on the TEXT
column, i.e. lexicographic on the ISO strings). -/
def sortDateDesc : List WorkoutResponse → List WorkoutResponse
  | [] => []
  | x :: xs => insertDateDesc x (sortDateDesc xs)

/-- `get_workouts` (`GET /workouts/`): every persisted row, ordered by `date`
descending. -/
def get_workouts (db : DB) : List WorkoutResponse :=
  sortDateDesc db.rows

/-- The `COALESCE(weight, 1)` of the analytics query: `weight` if present,
else `1`. -/
def effectiveWeight (r : WorkoutResponse) : Rat :=
  r.weight.getD 1

/-- One row's contribution to `SUM(reps * sets * COALESCE(weight, 1))`. -/
def rowVolume (r : WorkoutResponse) : Rat :=
  r.reps * r.sets * effectiveWeight r

/-- The rows selected by the analytics query's WHERE clause
`date >= date('now', '-7 days', 'localtime')`: the comparison is
TEXT `>=` against the cutoff string (the local date seven days before now),
passed here as the parameter `cutoff`.  Note the clause has no upper
bound. -/
def analyticsRows (cutoff : String) (db : DB) : List WorkoutResponse :=
  db.rows.filter fun r => strLe cutoff r.date

/-- Insert a string into a list kept ascending (SQLite realises
`GROUP BY type` with a sorter, so groups come out in ascending BINARY order
of `type`). -/
def insertStrAsc (s : String) : List String → List String
  | [] => [s]
  | x :: xs => if strLe s x then s :: x :: xs else x :: insertStrAsc s xs

/-- Sort strings ascending (the group output order of `GROUP BY type`). -/
def sortStrAsc : List String → List String
  | [] => []
  | x :: xs => insertStrAsc x (sortStrAsc xs)

/-- The distinct `type` values of the rows in the window, in the group-by
output order. -/
def analyticsLabels (cutoff : String) (db : DB) : List String :=
  sortStrAsc ((analyticsRows cutoff db).map (·.type)).dedup

/-- `SUM(reps * sets)` over the window rows of one `type`. -/
def repsTotal (cutoff : String) (db : DB) (t : String) : Int :=
  (((analyticsRows cutoff db).filter fun r => r.type = t).map
    fun r => r.reps * r.sets).sum

/-- `SUM(reps * sets * COALESCE(weight, 1))` over the window rows of one
`type`. -/
def volumeTotal (cutoff : String) (db : DB) (t : String) : Rat :=
  (((analyticsRows cutoff db).filter fun r => r.type = t).map rowVolume).sum

/-- `get_analytics` (`GET /analytics/`): the grouped aggregation query, one
label per distinct `type` among the rows passing the WHERE clause, with the
two sums per group; the three lists are built index-aligned from the result
rows.  `cutoff` stands for the string `date('now', '-7 days', 'localtime')`
computed from the server clock at query time. -/
def get_analytics (cutoff : String) (db : DB) : AnalyticsResponse :=
  let labels := analyticsLabels cutoff db
  { labels := labels
    reps_data := labels.map (repsTotal cutoff db)
    volume_data := labels.map (volumeTotal cutoff db) }

/-- The body of `delete_workout`'s `try` block: SELECT the id first; if no
row exists raise the 404 `HTTPException`; otherwise DELETE the row, commit,
and return the success body. -/
def delete_workout_try (workout_id : Nat) (db : DB) :
    Except HTTPError (DeleteAck × DB) :=
  if db.rows.any fun r => r.id == workout_id then
    .ok (⟨"success", "Workout deleted"⟩,
      ⟨db.rows.filter fun r => r.id ≠ workout_id, db.seq⟩)
  else
    .error .notFound

/-- `delete_workout` (`DELETE /workouts/{workout_id}`): the `try` body wrapped
in `except Exception as e`.  `HTTPException` subclasses `Exception`, so the
handler catches the service's own 404 as well; it then calls
`conn.rollback()` on the connection the `with` block has already closed,
which raises `sqlite3.ProgrammingError`, and the request ends as a generic
500 server error.  Every error path is therefore observed as
`serverError`. -/
def delete_workout (workout_id : Nat) (db : DB) :
    Except HTTPError (DeleteAck × DB) :=
  match delete_workout_try workout_id db with
  | .ok res => .ok res
  | .error _ => .error .serverError

/-- The states reachable from a fresh store by the two mutating operations,
carrying the list of every id ever assigned (newest first).  A delete step
only happens when the operation succeeds; a failed delete leaves the store
unchanged. -/
inductive ReachableWith : DB → List Nat → Prop where
  | init : ReachableWith initDB []
  | create (w : Workouts) (db : DB) (used : List Nat) :
      ReachableWith db used →
      ReachableWith (add_workout w db).2 ((add_workout w db).1.id :: used)
  | delete (n : Nat) (db db' : DB) (used : List Nat) (ack : DeleteAck) :
      ReachableWith db used →
      delete_workout n db = .ok (ack, db') →
      ReachableWith db' used

/-- A store state reachable by some sequence of creates and deletes. -/
def Reachable (db : DB) : Prop :=
  ∃ used, ReachableWith db used

theorem lexLe_cons_iff {x y : Char} {xs ys : List Char} :
    lexLe (x :: xs) (y :: ys) = true ↔
      x.toNat < y.toNat ∨ (x.toNat = y.toNat ∧ lexLe xs ys = true) := by
  rcases Nat.lt_trichotomy x.toNat y.toNat with h | h | h
  · simp [lexLe, h]
  · simp [lexLe, h]
  · have h1 : ¬ x.toNat < y.toNat := by omega
    simp [lexLe, h, h1]
    omega

theorem lexLe_refl (a : List Char) : lexLe a a = true := by
  induction a with
  | nil => rfl
  | cons x xs ih => simp [lexLe_cons_iff, ih]

theorem lexLe_total (a b : List Char) : lexLe a b = true ∨ lexLe b a = true := by
  induction a generalizing b with
  | nil => left; rfl
  | cons x xs ih =>
    cases b with
    | nil => right; rfl
    | cons y ys =>
      rcases Nat.lt_trichotomy x.toNat y.toNat with h | h | h
      · left; simp [lexLe_cons_iff, h]
      · rcases ih ys with h2 | h2
        · left; simp [lexLe_cons_iff, h, h2]
        · right; simp [lexLe_cons_iff, h.symm, h2]
      · right; simp [lexLe_cons_iff, h]

theorem lexLe_trans {a b c : List Char}
    (h1 : lexLe a b = true) (h2 : lexLe b c = true) : lexLe a c = true := by
  induction a generalizing b c with
  | nil => rfl
  | cons x xs ih =>
    cases b with
    | nil => simp [lexLe] at h1
    | cons y ys =>
      cases c with
      | nil => simp [lexLe] at h2
      | cons z zs =>
        rw [lexLe_cons_iff] at h1 h2 ⊢
        rcases h1 with h1 | ⟨h1e, h1r⟩
        · rcases h2 with h2 | ⟨h2e, _⟩
          · exact Or.inl (h1.trans h2)
          · exact Or.inl (h2e ▸ h1)
        · rcases h2 with h2 | ⟨h2e, h2r⟩
          · exact Or.inl (h1e ▸ h2)
          · exact Or.inr ⟨h1e.trans h2e, ih h1r h2r⟩

theorem strLe_refl (a : String) : strLe a a = true :=
  lexLe_refl a.data

theorem strLe_total (a b : String) : strLe a b = true ∨ strLe b a = true :=
  lexLe_total a.data b.data

theorem strLe_trans {a b c : String}
    (h1 : strLe a b = true) (h2 : strLe b c = true) : strLe a c = true :=
  lexLe_trans h1 h2

theorem insertDateDesc_perm (r : WorkoutResponse) (l : List WorkoutResponse) :
    (insertDateDesc r l).Perm (r :: l) := by
  induction l with
  | nil => exact List.Perm.refl _
  | cons x xs ih =>
    by_cases h : strLe x.date r.date = true
    · simp [insertDateDesc, h]
    · simp only [insertDateDesc, h, if_false]
      exact (ih.cons x).trans (List.Perm.swap r x xs)

theorem sortDateDesc_perm (l : List WorkoutResponse) :
    (sortDateDesc l).Perm l := by
  induction l with
  | nil => exact List.Perm.refl _
  | cons x xs ih =>
    exact (insertDateDesc_perm x (sortDateDesc xs)).trans (ih.cons x)

theorem insertDateDesc_pairwise (r : WorkoutResponse) (l : List WorkoutResponse)
    (h : l.Pairwise fun a b => strLe b.date a.date = true) :
    (insertDateDesc r l).Pairwise fun a b => strLe b.date a.date = true := by
  induction l with
  | nil => simp [insertDateDesc]
  | cons x xs ih =>
    rcases List.pairwise_cons.mp h with ⟨hx, hxs⟩
    by_cases hc : strLe x.date r.date = true
    · simp only [insertDateDesc, hc, if_true]
      refine List.pairwise_cons.mpr ⟨?_, h⟩
      intro y hy
      rcases List.mem_cons.mp hy with hy | hy
      · exact hy ▸ hc
      · exact strLe_trans (hx y hy) hc
    · simp only [insertDateDesc, hc, if_false]
      refine List.pairwise_cons.mpr ⟨?_, ih hxs⟩
      intro y hy
      have hy' := (insertDateDesc_perm r xs).mem_iff.mp hy
      rcases List.mem_cons.mp hy' with hy' | hy'
      · subst hy'
        rcases strLe_total y.date x.date with h' | h'
        · exact h'
        · exact absurd h' hc
      · exact hx y hy'

theorem sortDateDesc_pairwise (l : List WorkoutResponse) :
    (sortDateDesc l).Pairwise fun a b => strLe b.date a.date = true := by
  induction l with
  | nil => simp [sortDateDesc]
  | cons x xs ih => exact insertDateDesc_pairwise x (sortDateDesc xs) ih

theorem insertStrAsc_perm (s : String) (l : List String) :
    (insertStrAsc s l).Perm (s :: l) := by
  induction l with
  | nil => exact List.Perm.refl _
  | cons x xs ih =>
    by_cases h : strLe s x = true
    · simp [insertStrAsc, h]
    · simp only [insertStrAsc, h, if_false]
      exact (ih.cons x).trans (List.Perm.swap s x xs)

theorem sortStrAsc_perm (l : List String) : (sortStrAsc l).Perm l := by
  induction l with
  | nil => exact List.Perm.refl _
  | cons x xs ih =>
    exact (insertStrAsc_perm x (sortStrAsc xs)).trans (ih.cons x)

theorem delete_workout_ok {n : Nat} {db db' : DB} {ack : DeleteAck}
    (h : delete_workout n db = .ok (ack, db')) :
    (db.rows.any fun r => r.id == n) = true
    ∧ ack = ⟨"success", "Workout deleted"⟩
    ∧ db' = ⟨db.rows.filter fun r => r.id ≠ n, db.seq⟩ := by
  by_cases hc : (db.rows.any fun r => r.id == n) = true
  · have hdef : delete_workout n db =
        .ok (⟨"success", "Workout deleted"⟩,
          ⟨db.rows.filter fun r => r.id ≠ n, db.seq⟩) := by
      simp [delete_workout, delete_workout_try, hc]
    rw [hdef] at h
    injection h with h
    injection h with h1 h2
    exact ⟨hc, h1.symm, h2.symm⟩
  · simp [delete_workout, delete_workout_try, hc] at h

theorem reachableInv {db : DB} {used : List Nat} (h : ReachableWith db used) :
    (∀ r ∈ db.rows, r.id ∈ used)
    ∧ (∀ i ∈ used, i ≤ db.seq)
    ∧ used.Nodup
    ∧ (db.rows.map fun r => r.id).Nodup := by
  induction h with
  | init => simp [initDB]
  | create w db used _ ih =>
    rcases ih with ⟨hmem, hbound, hnodup, hrows⟩
    simp only [add_workout]
    refine ⟨?_, ?_, ?_, ?_⟩
    · intro r hr
      rcases List.mem_append.mp hr with hr | hr
      · exact List.mem_cons_of_mem _ (hmem r hr)
      · rcases List.mem_singleton.mp hr with rfl
        exact List.mem_cons_self _ _
    · intro i hi
      rcases List.mem_cons.mp hi with rfl | hi
      · exact Nat.le_refl _
      · exact Nat.le_succ_of_le (hbound i hi)
    · refine List.nodup_cons.mpr ⟨?_, hnodup⟩
      intro hmem'
      have := hbound _ hmem'
      omega
    · rw [List.map_append]
      refine List.nodup_append.mpr ⟨hrows, List.nodup_singleton _, ?_⟩
      intro i hi hj
      rcases List.mem_map.mp hi with ⟨r, hr, rfl⟩
      have h' := List.mem_singleton.mp hj
      have := hbound _ (hmem r hr)
      simp only at h'
      omega
  | delete n db db' used ack _ hdel ih =>
    rcases ih with ⟨hmem, hbound, hnodup, hrows⟩
    rcases delete_workout_ok hdel with ⟨_, _, rfl⟩
    refine ⟨?_, hbound, hnodup, ?_⟩
    · intro r hr
      exact hmem r (List.mem_of_mem_filter hr)
    · show (List.map (fun r => r.id)
        (List.filter (fun r => decide (r.id ≠ n)) db.rows)).Nodup
      exact List.Nodup.sublist
        (List.Sublist.map (fun (r : WorkoutResponse) => r.id)
          (List.filter_sublist db.rows)) hrows

theorem analyticsRows_filter_self (cutoff : String) (db : DB) :
    analyticsRows cutoff ⟨db.rows.filter fun r => strLe cutoff r.date, db.seq⟩
      = analyticsRows cutoff db := by
  simp [analyticsRows, List.filter_filter]

theorem get_analytics_congr {cutoff : String} {db1 db2 : DB}
    (h : analyticsRows cutoff db1 = analyticsRows cutoff db2) :
    get_analytics cutoff db1 = get_analytics cutoff db2 := by
  have h1 : repsTotal cutoff db1 = repsTotal cutoff db2 := by
    funext t
    simp only [repsTotal, h]
  have h2 : volumeTotal cutoff db1 = volumeTotal cutoff db2 := by
    funext t
    simp only [volumeTotal, h]
  simp only [get_analytics, analyticsLabels, h, h1, h2]

theorem filter_type_analyticsRows (cutoff : String) (db : DB) (t : String) :
    (analyticsRows cutoff db).filter (fun r => r.type = t)
      = db.rows.filter fun r => strLe cutoff r.date ∧ r.type = t := by
  simp only [analyticsRows, List.filter_filter]
  apply List.filter_congr
  intro r _
  by_cases h1 : strLe cutoff r.date = true <;> by_cases h2 : r.type = t <;>
    simp [h1, h2]

theorem mem_analyticsLabels (cutoff : String) (db : DB) (t : String) :
    t ∈ analyticsLabels cutoff db
      ↔ ∃ r ∈ analyticsRows cutoff db, r.type = t := by
  rw [analyticsLabels, (sortStrAsc_perm _).mem_iff, List.mem_dedup]
  simp [List.mem_map]

theorem analyticsLabels_nodup (cutoff : String) (db : DB) :
    (analyticsLabels cutoff db).Nodup :=
  (sortStrAsc_perm _).nodup_iff.mpr (List.nodup_dedup _)

/-- Claim C1 (code bug): on a store with no workout of id 999999, the `try`
body of `delete_workout` does raise the specific not-found error, but the
endpoint as a whole surfaces a generic server error: the
`except Exception` clause catches the service's own 404 `HTTPException` (an
`Exception` subclass) and the request ends as a 500. -/
theorem delete_missing_yields_server_error :
    ((⟨[⟨1, "squat", "2024-01-10", 10, 3, none⟩], 1⟩ : DB).rows.all
      fun r => r.id ≠ 999999) = true
    ∧ delete_workout_try 999999 ⟨[⟨1, "squat", "2024-01-10", 10, 3, none⟩], 1⟩
        = .error .notFound
    ∧ delete_workout 999999 ⟨[⟨1, "squat", "2024-01-10", 10, 3, none⟩], 1⟩
        = .error .serverError :=
  ⟨by decide, rfl, rfl⟩

/-- Claim C2, counterexample to the claim as stated: with current local date
`2024-01-10` (so the trailing 7-day window ending there is
`2024-01-03 … 2024-01-10`), a workout dated `2099-01-01` does not fall
within that window, yet Aggregate counts it — its type shows up as a label
and its `reps * sets = 6` shows up in the totals, because the WHERE clause
bounds the date from below only. -/
theorem analytics_counts_row_after_window :
    strLe "2099-01-01" "2024-01-10" = false
    ∧ strLe "2024-01-03" "2099-01-01" = true
    ∧ (get_analytics "2024-01-03"
        ⟨[⟨1, "run", "2099-01-01", 2, 3, none⟩], 1⟩).labels = ["run"]
    ∧ (get_analytics "2024-01-03"
        ⟨[⟨1, "run", "2099-01-01", 2, 3, none⟩], 1⟩).reps_data = [6] :=
  ⟨by decide, by decide, by decide, by decide⟩

/-- Claim C2 as amended: Aggregate's totals range over exactly the workouts
dated on or after the cutoff (the current local date minus 7 days), with no
upper bound: rows dated before the cutoff never influence the result
(filtering them away first changes nothing), every row dated on or after
the cutoff is counted (its type appears among the labels), and every label
stems from such a row. -/
theorem analytics_window_amended (cutoff : String) (db : DB)
    (r : WorkoutResponse) (t : String) (hr : r ∈ db.rows)
    (hdate : strLe cutoff r.date = true)
    (ht : t ∈ (get_analytics cutoff db).labels) :
    get_analytics cutoff ⟨db.rows.filter fun x => strLe cutoff x.date, db.seq⟩
        = get_analytics cutoff db
    ∧ r.type ∈ (get_analytics cutoff db).labels
    ∧ ∃ x ∈ db.rows, strLe cutoff x.date = true ∧ x.type = t := by
  refine ⟨get_analytics_congr (analyticsRows_filter_self cutoff db), ?_, ?_⟩
  · show r.type ∈ analyticsLabels cutoff db
    rw [mem_analyticsLabels]
    exact ⟨r, List.mem_filter.mpr ⟨hr, hdate⟩, rfl⟩
  · have ht' : t ∈ analyticsLabels cutoff db := ht
    rw [mem_analyticsLabels] at ht'
    rcases ht' with ⟨x, hx, rfl⟩
    have hx' := List.mem_filter.mp hx
    exact ⟨x, hx'.1, hx'.2, rfl⟩

/-- Witness for the amended C2: a store with one recent and one stale row;
filtering to the window first changes nothing, the recent row's type is a
label, and the label `squat` stems from an in-window row. -/
theorem analytics_window_amended_witness :
    (⟨1, "squat", "2024-01-10", 10, 3, none⟩ : WorkoutResponse)
        ∈ (⟨[⟨1, "squat", "2024-01-10", 10, 3, none⟩,
             ⟨2, "old", "2020-01-01", 1, 1, none⟩], 2⟩ : DB).rows
    ∧ strLe "2024-01-03"
        (⟨1, "squat", "2024-01-10", 10, 3, none⟩ : WorkoutResponse).date = true
    ∧ "squat" ∈ (get_analytics "2024-01-03"
        ⟨[⟨1, "squat", "2024-01-10", 10, 3, none⟩,
          ⟨2, "old", "2020-01-01", 1, 1, none⟩], 2⟩).labels
    ∧ (get_analytics "2024-01-03"
        ⟨(⟨[⟨1, "squat", "2024-01-10", 10, 3, none⟩,
            ⟨2, "old", "2020-01-01", 1, 1, none⟩], 2⟩ : DB).rows.filter
            fun x => strLe "2024-01-03" x.date,
          (⟨[⟨1, "squat", "2024-01-10", 10, 3, none⟩,
            ⟨2, "old", "2020-01-01", 1, 1, none⟩], 2⟩ : DB).seq⟩
        = get_analytics "2024-01-03"
            ⟨[⟨1, "squat", "2024-01-10", 10, 3, none⟩,
              ⟨2, "old", "2020-01-01", 1, 1, none⟩], 2⟩
    ∧ (⟨1, "squat", "2024-01-10", 10, 3, none⟩ : WorkoutResponse).type
        ∈ (get_analytics "2024-01-03"
            ⟨[⟨1, "squat", "2024-01-10", 10, 3, none⟩,
              ⟨2, "old", "2020-01-01", 1, 1, none⟩], 2⟩).labels
    ∧ ∃ x ∈ (⟨[⟨1, "squat", "2024-01-10", 10, 3, none⟩,
          ⟨2, "old", "2020-01-01", 1, 1, none⟩], 2⟩ : DB).rows,
        strLe "2024-01-03" x.date = true ∧ x.type = "squat") :=
  ⟨by decide, by decide, by decide,
    analytics_window_amended "2024-01-03"
      ⟨[⟨1, "squat", "2024-01-10", 10, 3, none⟩,
        ⟨2, "old", "2020-01-01", 1, 1, none⟩], 2⟩
      ⟨1, "squat", "2024-01-10", 10, 3, none⟩ "squat"
      (by decide) (by decide) (by decide)⟩

/-- Claim C6: List returns every persisted workout, ordered by `date`
descending (under the store's TEXT comparison), and in particular listing a
store holding workouts dated `2024-01-01` and `2024-06-01` (created in that
order) returns the `2024-06-01` entry first. -/
theorem list_returns_all_sorted (db : DB) :
    (get_workouts db).Perm db.rows
    ∧ (get_workouts db).Pairwise (fun a b => strLe b.date a.date = true)
    ∧ get_workouts (add_workout ⟨"run", "2024-06-01", 1, 1, none⟩
        (add_workout ⟨"run", "2024-01-01", 1, 1, none⟩ initDB).2).2
      = [⟨2, "run", "2024-06-01", 1, 1, none⟩,
         ⟨1, "run", "2024-01-01", 1, 1, none⟩] :=
  ⟨sortDateDesc_perm db.rows, sortDateDesc_pairwise db.rows, by decide⟩

/-- Claim C10: when no persisted workout passes the window check — in
particular on an empty store — Aggregate returns three empty sequences, and
List on an empty store returns the empty array. -/
theorem empty_window_empty_results (cutoff : String) (db : DB)
    (h : ∀ r ∈ db.rows, strLe cutoff r.date = false) :
    get_analytics cutoff db = ⟨[], [], []⟩
    ∧ get_analytics cutoff initDB = ⟨[], [], []⟩
    ∧ get_workouts initDB = [] := by
  refine ⟨?_, rfl, rfl⟩
  have hrows : analyticsRows cutoff db = [] := by
    rw [analyticsRows, List.filter_eq_nil_iff]
    intro r hrr
    simp [h r hrr]
  simp [get_analytics, analyticsLabels, hrows, sortStrAsc]

/-- Witness for C10: a store whose only workout is dated before the cutoff
aggregates to three empty sequences. -/
theorem empty_window_empty_results_witness :
    (∀ r ∈ (⟨[⟨1, "a", "2020-01-01", 1, 1, none⟩], 1⟩ : DB).rows,
      strLe "2024-01-03" r.date = false)
    ∧ (get_analytics "2024-01-03" ⟨[⟨1, "a", "2020-01-01", 1, 1, none⟩], 1⟩
        = ⟨[], [], []⟩
    ∧ get_analytics "2024-01-03" initDB = ⟨[], [], []⟩
    ∧ get_workouts initDB = []) :=
  ⟨by decide, empty_window_empty_results "2024-01-03" _ (by decide)⟩

/-- Claim C3: on any reachable store, Create echoes every submitted field in
its response, the assigned id differs from every id ever assigned before
(in particular from every currently persisted id), and a subsequent List
contains exactly that record. -/
theorem create_then_list (w : Workouts) (db : DB) (used : List Nat)
    (h : ReachableWith db used) :
    (add_workout w db).1.type = w.type
    ∧ (add_workout w db).1.date = w.date
    ∧ (add_workout w db).1.reps = w.reps
    ∧ (add_workout w db).1.sets = w.sets
    ∧ (add_workout w db).1.weight = w.weight
    ∧ (add_workout w db).1.id ∉ used
    ∧ (∀ r ∈ db.rows, r.id ≠ (add_workout w db).1.id)
    ∧ (add_workout w db).1 ∈ get_workouts (add_workout w db).2 := by
  rcases reachableInv h with ⟨hmem, hbound, -, -⟩
  refine ⟨rfl, rfl, rfl, rfl, rfl, ?_, ?_, ?_⟩
  · intro hin
    have hb := hbound _ hin
    simp only [add_workout] at hb
    omega
  · intro r hr heq
    have hb := hbound _ (hmem r hr)
    simp only [add_workout] at heq
    omega
  · show (add_workout w db).1 ∈ sortDateDesc (db.rows ++ [(add_workout w db).1])
    exact (sortDateDesc_perm _).mem_iff.mpr
      (List.mem_append.mpr (Or.inr (List.mem_singleton.mpr rfl)))

/-- Witness for C3: creating a workout on the fresh (reachable) store echoes
the input, assigns a fresh id, and the record appears in the listing. -/
theorem create_then_list_witness :
    ReachableWith initDB []
    ∧ ((add_workout ⟨"squat", "2024-01-10", 10, 3, some 100⟩ initDB).1.type
          = "squat"
    ∧ (add_workout ⟨"squat", "2024-01-10", 10, 3, some 100⟩ initDB).1.date
          = "2024-01-10"
    ∧ (add_workout ⟨"squat", "2024-01-10", 10, 3, some 100⟩ initDB).1.reps = 10
    ∧ (add_workout ⟨"squat", "2024-01-10", 10, 3, some 100⟩ initDB).1.sets = 3
    ∧ (add_workout ⟨"squat", "2024-01-10", 10, 3, some 100⟩ initDB).1.weight
          = some 100
    ∧ (add_workout ⟨"squat", "2024-01-10", 10, 3, some 100⟩ initDB).1.id
          ∉ ([] : List Nat)
    ∧ (∀ r ∈ initDB.rows,
        r.id ≠ (add_workout ⟨"squat", "2024-01-10", 10, 3, some 100⟩ initDB).1.id)
    ∧ (add_workout ⟨"squat", "2024-01-10", 10, 3, some 100⟩ initDB).1
        ∈ get_workouts
            (add_workout ⟨"squat", "2024-01-10", 10, 3, some 100⟩ initDB).2) :=
  ⟨.init, create_then_list ⟨"squat", "2024-01-10", 10, 3, some 100⟩ initDB [] .init⟩

/-- Claim C4: a workout with absent `weight` contributes with effective
weight `1`, i.e. exactly `reps * sets`, to its type's weighted volume; the
end-to-end scenario creating the two squat workouts (one weighted 100, one
unweighted) yields one `squat` label with reps total 40 and volume total
3010. -/
theorem weight_absent_contribution (r : WorkoutResponse) (h : r.weight = none) :
    effectiveWeight r = 1
    ∧ rowVolume r = (r.reps : Rat) * (r.sets : Rat)
    ∧ strLe "2024-01-03" "2024-01-10" = true
    ∧ get_analytics "2024-01-03"
        (add_workout ⟨"squat", "2024-01-10", 5, 2, none⟩
          (add_workout ⟨"squat", "2024-01-10", 10, 3, some 100⟩ initDB).2).2
        = ⟨["squat"], [40], [3010]⟩ := by
  refine ⟨by simp [effectiveWeight, h], by simp [rowVolume, effectiveWeight, h],
    by decide, ?_⟩
  norm_num +decide [get_analytics, analyticsLabels, analyticsRows, repsTotal,
    volumeTotal, rowVolume, effectiveWeight, sortStrAsc, insertStrAsc,
    strLe, lexLe, List.dedup, add_workout, initDB]

/-- Witness for C4: the unweighted squat row itself. -/
theorem weight_absent_contribution_witness :
    (⟨2, "squat", "2024-01-10", 5, 2, none⟩ : WorkoutResponse).weight = none
    ∧ (effectiveWeight ⟨2, "squat", "2024-01-10", 5, 2, none⟩ = 1
    ∧ rowVolume ⟨2, "squat", "2024-01-10", 5, 2, none⟩
        = ((5 : Int) : Rat) * ((2 : Int) : Rat)
    ∧ strLe "2024-01-03" "2024-01-10" = true
    ∧ get_analytics "2024-01-03"
        (add_workout ⟨"squat", "2024-01-10", 5, 2, none⟩
          (add_workout ⟨"squat", "2024-01-10", 10, 3, some 100⟩ initDB).2).2
        = ⟨["squat"], [40], [3010]⟩) :=
  ⟨rfl, weight_absent_contribution ⟨2, "squat", "2024-01-10", 5, 2, none⟩ rfl⟩

/-- Claim C5: Aggregate's three sequences have equal length, its labels are
pairwise distinct, and the entries at each index are the reps and
weighted-volume totals over the persisted workouts of that index's label
that pass the window check. -/
theorem analytics_parallel_consistent (cutoff : String) (db : DB) :
    (get_analytics cutoff db).labels.length
        = (get_analytics cutoff db).reps_data.length
    ∧ (get_analytics cutoff db).labels.length
        = (get_analytics cutoff db).volume_data.length
    ∧ (get_analytics cutoff db).labels.Nodup
    ∧ (get_analytics cutoff db).reps_data
        = (get_analytics cutoff db).labels.map (fun t =>
            ((db.rows.filter fun r => strLe cutoff r.date ∧ r.type = t).map
              fun r => r.reps * r.sets).sum)
    ∧ (get_analytics cutoff db).volume_data
        = (get_analytics cutoff db).labels.map (fun t =>
            ((db.rows.filter fun r => strLe cutoff r.date ∧ r.type = t).map
              rowVolume).sum) := by
  refine ⟨(List.length_map _ _).symm, (List.length_map _ _).symm,
    analyticsLabels_nodup cutoff db, ?_, ?_⟩
  · show List.map (repsTotal cutoff db) (analyticsLabels cutoff db)
      = List.map _ (analyticsLabels cutoff db)
    rw [List.map_inj_left]
    intro t _
    rw [repsTotal, filter_type_analyticsRows]
  · show List.map (volumeTotal cutoff db) (analyticsLabels cutoff db)
      = List.map _ (analyticsLabels cutoff db)
    rw [List.map_inj_left]
    intro t _
    rw [volumeTotal, filter_type_analyticsRows]

/-- Claim C7: deleting an id that is present succeeds with the
acknowledgment body, leaves exactly the rows of other ids (unchanged, in
store order), and afterwards neither List nor the aggregation window
contains a row of the deleted id. -/
theorem delete_existing_removes (n : Nat) (cutoff : String) (db : DB)
    (h : (db.rows.any fun r => r.id == n) = true) :
    delete_workout n db
      = .ok (⟨"success", "Workout deleted"⟩,
          ⟨db.rows.filter fun r => r.id ≠ n, db.seq⟩)
    ∧ (∀ r ∈ db.rows, r.id ≠ n → r ∈ db.rows.filter fun r => r.id ≠ n)
    ∧ (∀ r ∈ get_workouts ⟨db.rows.filter fun r => r.id ≠ n, db.seq⟩, r.id ≠ n)
    ∧ (∀ r ∈ analyticsRows cutoff ⟨db.rows.filter fun r => r.id ≠ n, db.seq⟩,
        r.id ≠ n) := by
  refine ⟨by simp [delete_workout, delete_workout_try, h], ?_, ?_, ?_⟩
  · intro r hr hne
    exact List.mem_filter.mpr ⟨hr, by simp [hne]⟩
  · intro r hr
    have h1 := (sortDateDesc_perm _).mem_iff.mp hr
    have h2 := List.mem_filter.mp h1
    simpa using h2.2
  · intro r hr
    have h1 := List.mem_of_mem_filter hr
    have h2 := List.mem_filter.mp h1
    simpa using h2.2

/-- Witness for C7: deleting id 1 from a two-row store keeps only the other
row and the listing and window no longer mention id 1. -/
theorem delete_existing_removes_witness :
    ((⟨[⟨1, "a", "2024-01-01", 1, 1, none⟩, ⟨2, "b", "2024-02-01", 1, 1, none⟩],
        2⟩ : DB).rows.any fun r => r.id == 1) = true
    ∧ (delete_workout 1
        ⟨[⟨1, "a", "2024-01-01", 1, 1, none⟩, ⟨2, "b", "2024-02-01", 1, 1, none⟩],
          2⟩
      = .ok (⟨"success", "Workout deleted"⟩,
          ⟨(⟨[⟨1, "a", "2024-01-01", 1, 1, none⟩,
              ⟨2, "b", "2024-02-01", 1, 1, none⟩], 2⟩ : DB).rows.filter
            fun r => r.id ≠ 1,
           (⟨[⟨1, "a", "2024-01-01", 1, 1, none⟩,
              ⟨2, "b", "2024-02-01", 1, 1, none⟩], 2⟩ : DB).seq⟩)
    ∧ (∀ r ∈ (⟨[⟨1, "a", "2024-01-01", 1, 1, none⟩,
          ⟨2, "b", "2024-02-01", 1, 1, none⟩], 2⟩ : DB).rows, r.id ≠ 1 →
          r ∈ (⟨[⟨1, "a", "2024-01-01", 1, 1, none⟩,
              ⟨2, "b", "2024-02-01", 1, 1, none⟩], 2⟩ : DB).rows.filter
            fun r => r.id ≠ 1)
    ∧ (∀ r ∈ get_workouts
          ⟨(⟨[⟨1, "a", "2024-01-01", 1, 1, none⟩,
              ⟨2, "b", "2024-02-01", 1, 1, none⟩], 2⟩ : DB).rows.filter
            fun r => r.id ≠ 1,
           (⟨[⟨1, "a", "2024-01-01", 1, 1, none⟩,
              ⟨2, "b", "2024-02-01", 1, 1, none⟩], 2⟩ : DB).seq⟩, r.id ≠ 1)
    ∧ (∀ r ∈ analyticsRows "2020-01-01"
          ⟨(⟨[⟨1, "a", "2024-01-01", 1, 1, none⟩,
              ⟨2, "b", "2024-02-01", 1, 1, none⟩], 2⟩ : DB).rows.filter
            fun r => r.id ≠ 1,
           (⟨[⟨1, "a", "2024-01-01", 1, 1, none⟩,
              ⟨2, "b", "2024-02-01", 1, 1, none⟩], 2⟩ : DB).seq⟩, r.id ≠ 1)) :=
  ⟨by decide, delete_existing_removes 1 "2020-01-01"
    ⟨[⟨1, "a", "2024-01-01", 1, 1, none⟩, ⟨2, "b", "2024-02-01", 1, 1, none⟩], 2⟩
    (by decide)⟩

/-- Claim C8: in every state reachable by Create and Delete steps from the
fresh store, the persisted ids are pairwise distinct, no id is ever
assigned twice over the whole history (so a deleted workout's id is never
reused), every persisted id was assigned at some point, and every assigned
id is bounded by the AUTOINCREMENT sequence.  (Non-nullity of `type`,
`date`, `reps`, `sets` is structural: the corresponding `WorkoutResponse`
fields are not optional.) -/
theorem reachable_id_invariants (db : DB) (used : List Nat)
    (h : ReachableWith db used) :
    (db.rows.map fun r => r.id).Nodup
    ∧ used.Nodup
    ∧ (∀ r ∈ db.rows, r.id ∈ used)
    ∧ (∀ i ∈ used, i ≤ db.seq) := by
  rcases reachableInv h with ⟨hmem, hbound, hnodup, hrows⟩
  exact ⟨hrows, hnodup, hmem, hbound⟩

/-- Witness for C8: the state reached by create, delete, create: the second
create does not reuse the deleted id 1 but assigns id 2. -/
theorem reachable_id_invariants_witness :
    ReachableWith ⟨[⟨2, "b", "2024-02-01", 1, 1, none⟩], 2⟩ [2, 1]
    ∧ ((([⟨2, "b", "2024-02-01", 1, 1, none⟩] :
          List WorkoutResponse).map fun r => r.id).Nodup
    ∧ ([2, 1] : List Nat).Nodup
    ∧ (∀ r ∈ (⟨[⟨2, "b", "2024-02-01", 1, 1, none⟩], 2⟩ : DB).rows,
        r.id ∈ ([2, 1] : List Nat))
    ∧ (∀ i ∈ ([2, 1] : List Nat),
        i ≤ (⟨[⟨2, "b", "2024-02-01", 1, 1, none⟩], 2⟩ : DB).seq)) := by
  have h4 : ReachableWith ⟨[⟨2, "b", "2024-02-01", 1, 1, none⟩], 2⟩ [2, 1] :=
    .create ⟨"b", "2024-02-01", 1, 1, none⟩ ⟨[], 1⟩ [1]
      (.delete 1 ⟨[⟨1, "a", "2024-01-01", 1, 1, none⟩], 1⟩ ⟨[], 1⟩ [1]
        ⟨"success", "Workout deleted"⟩
        (.create ⟨"a", "2024-01-01", 1, 1, none⟩ initDB [] .init) rfl)
  exact ⟨h4, reachable_id_invariants _ _ h4⟩

end FitnessTracker
